import Mathlib

/-!
# Verification of the qtbricks `FileBrowser` navigation/selection state machine

This file gives a shallow embedding of the state machine implemented in
`qtbricks/filebrowser.py`: the `FileBrowser` widget together with the parts of
its `_FileTree` view and the underlying file-system model that take part in
root-path changes and selection changes.

The widget state is modelled as a record of the Python instance attributes
(`root_path`, `selection`, `_previous_path`, `_next_path`, the text of the
path line edit, the enabled flags of the back/forward buttons) together with
the root path stored in the `_FileTree` (`_root_path`) and in the
file-system model (`rootPath`).  Signal emissions that leave the widget are
recorded explicitly: each emission carries its payload together with a
snapshot of the state an external consumer would observe at delivery time.
-/

/-- A signal leaving the widget: either the tree's `root_path_changed`
signal (payload: the new path) or the browser's `selection_changed` signal
(payload: the list of selected file paths). -/
inductive Signal where
  | rootChanged (path : String)
  | selectionChanged (selection : List String)
deriving Repr, DecidableEq

/-- One observable signal emission.  `root_at` and `selection_at` record the
values of `FileBrowser.root_path` and `FileBrowser.selection` at the moment
an external consumer slot runs, i.e. what a consumer calling back into the
widget during the notification would read. -/
structure Emit where
  signal : Signal
  root_at : String
  selection_at : List String
deriving Repr, DecidableEq

/-- The mutable state of a `FileBrowser` widget, including the parts of its
`_FileTree` and file-system model relevant to root-path handling.

* `root_path`, `selection`, `previous_path`, `next_path` are the attributes
  `root_path`, `selection`, `_previous_path`, `_next_path` of `FileBrowser`.
* `curdir_text` is the text of the `_curdir_edit` line edit.
* `back_enabled` / `forward_enabled` are the enabled states of the back and
  forward buttons, maintained by `_update_ui`.
* `tree_root` is `_FileTree._root_path`.
* `model_root` is the `rootPath` of the `QFileSystemModel`. -/
structure FileBrowser where
  root_path : String
  selection : List String
  previous_path : String
  next_path : String
  curdir_text : String
  back_enabled : Bool
  forward_enabled : Bool
  tree_root : String
  model_root : String
deriving Repr, DecidableEq

/-- `path.endswith("/")` on a Python string, expressed on the sequence of
characters: the last character is a separator. -/
def ends_with_sep (path : String) : Bool :=
  path.data.getLast? == some '/'

/-- The trailing-separator normalization inlined in
`FileBrowser._change_root_path` (`path[:-1]` drops the last character):

```python
if path.endswith("/") and path != "/":
    path = path[:-1]
```
-/
def strip_trailing_sep (path : String) : String :=
  if ends_with_sep path ∧ path ≠ "/" then ⟨path.data.dropLast⟩ else path

/-- `_FileTree.set_root_path` together with the model reaction.

```python
def set_root_path(self, path=""):
    if not path:
        return
    self._model.setRootPath(path)
    self.setRootIndex(self._model.index(self._model.rootPath()))
```

`QFileSystemModel.setRootPath` (external collaborator, per its documented
contract) stores the new root and fires `rootPathChanged(newPath)` only when
the new path differs from the current one; that signal is connected to
`_FileTree._root_path_changed`:

```python
def _root_path_changed(self, path=""):
    if path != self._root_path:
        self._root_path = path
        self.root_path_changed.emit(path)
```

The function returns the payload of the tree's `root_path_changed` signal
when it fires (`none` otherwise); delivery of that signal to its slots is
modelled at the call sites, where the connection order is known. -/
def tree_set_root_path (s : FileBrowser) (path : String) :
    FileBrowser × Option String :=
  if path = "" then (s, none)
  else if path = s.model_root then (s, none)
  else
    let s1 := { s with model_root := path }
    if path = s1.tree_root then (s1, none)
    else ({ s1 with tree_root := path }, some path)

/-- `FileBrowser._change_root_path` followed by `_update_ui`:

```python
def _change_root_path(self, path=""):
    if path == self.root_path:
        return
    if path.endswith("/") and path != "/":
        path = path[:-1]
    self._previous_path = self.root_path
    self.root_path = path
    self._update_ui()

def _update_ui(self):
    self._curdir_edit.setText(self.root_path)
    self._tree_view.set_root_path(self.root_path)
    self._back_button.setEnabled(bool(self._previous_path))
    self._forward_button.setEnabled(bool(self._next_path))
```

`update_ui` below is `_update_ui`; it returns the payload of the tree's
`root_path_changed` signal when the nested `set_root_path` makes it fire.
When that happens during `_change_root_path`, the first connected slot is
`_change_root_path` itself with the very path just assigned to `root_path`,
hence a no-op (`change_root_path_reentry` below); external consumers
(connected after the widget's own connections) then observe the
already-updated state, recorded in the returned emission. -/
def update_ui (s : FileBrowser) : FileBrowser × Option String :=
  let s1 := { s with curdir_text := s.root_path }
  let res := tree_set_root_path s1 s1.root_path
  ({ res.1 with
     back_enabled := res.1.previous_path ≠ ""
     forward_enabled := res.1.next_path ≠ "" }, res.2)

/-- `FileBrowser._change_root_path`; see `update_ui` above for the second
half and the signal bookkeeping. -/
def change_root_path (s : FileBrowser) (path : String) :
    FileBrowser × List Emit :=
  if path = s.root_path then (s, [])
  else
    let path := strip_trailing_sep path
    let s1 := { s with previous_path := s.root_path, root_path := path }
    let res := update_ui s1
    (res.1, match res.2 with
            | some q => [⟨Signal.rootChanged q, res.1.root_path, res.1.selection⟩]
            | none => [])

/-- `FileBrowser.__init__` (state-relevant part), with `cwd` standing for
`os.path.abspath(os.path.curdir)`:

```python
self.root_path = path or os.path.abspath(os.path.curdir)
self.selection = []
self._previous_path = ""
self._next_path = ""
...
self._tree_view = _FileTree(root_path=self.root_path)
self._setup_ui()
self._update_ui()
```

`_FileTree.__init__` stores `_root_path` and, through `set_root_path`,
pushes it into the model (no signal leaves the widget: the model's
`rootPathChanged` reaches `_root_path_changed` with `path == _root_path`,
and the browser's slots are connected only afterwards).  `_update_ui` then
sets the line-edit text and the button enabled flags. -/
def mkFileBrowser (cwd path : String) : FileBrowser :=
  let root := if path = "" then cwd else path
  { root_path := root
    selection := []
    previous_path := ""
    next_path := ""
    curdir_text := root
    back_enabled := false
    forward_enabled := false
    tree_root := root
    model_root := if root = "" then "" else root }

/-- `FileBrowser._go_back`:

```python
def _go_back(self):
    self._next_path = self.root_path
    self._change_root_path(path=self._previous_path)
```
-/
def go_back (s : FileBrowser) : FileBrowser × List Emit :=
  let s1 := { s with next_path := s.root_path }
  change_root_path s1 s1.previous_path

/-- `FileBrowser._go_forward`:

```python
def _go_forward(self):
    path = self._next_path
    self._next_path = ""
    self._change_root_path(path=path)
```
-/
def go_forward (s : FileBrowser) : FileBrowser × List Emit :=
  let path := s.next_path
  let s1 := { s with next_path := "" }
  change_root_path s1 path

/-- A user press of the back button.  `_go_back` is connected solely to the
back button's `pressed` signal, and a disabled `QPushButton` emits no
`pressed` signal, so the handler runs exactly when the button is enabled. -/
def press_back (s : FileBrowser) : FileBrowser × List Emit :=
  if s.back_enabled then go_back s else (s, [])

/-- A user press of the forward button; see `press_back`. -/
def press_forward (s : FileBrowser) : FileBrowser × List Emit :=
  if s.forward_enabled then go_forward s else (s, [])

/-- `str.rfind("/") + 1` of CPython's `posixpath.split`, i.e. the index one
past the last slash of `p` (0 when `p` contains no slash). -/
def rfind_slash_end (p : String) : Nat :=
  match p.data.reverse.findIdx? (fun c => c == '/') with
  | some k => p.length - k
  | none => 0

/-- The head component of `os.path.split(p)` on POSIX (CPython
`posixpath.split`):

```python
i = p.rfind('/') + 1
head, tail = p[:i], p[i:]
if head and head != '/' * len(head):
    head = head.rstrip('/')
return head, tail
```
-/
def ospath_split_head (p : String) : String :=
  let head : String := ⟨p.data.take (rfind_slash_end p)⟩
  if head ≠ "" ∧ ¬ (head.data.all fun c => c == '/') then
    ⟨(head.data.reverse.dropWhile fun c => c == '/').reverse⟩
  else head

/-- `FileBrowser._move_up`:

```python
def _move_up(self):
    self._change_root_path(path=os.path.split(self.root_path)[:-1][0])
```

(`os.path.split(...)[:-1][0]` is the head of the split.) -/
def move_up (s : FileBrowser) : FileBrowser × List Emit :=
  change_root_path s (ospath_split_head s.root_path)

/-- `FileBrowser._go_home`, with the user's home directory as parameter:

```python
def _go_home(self):
    self._change_root_path(path=os.path.expanduser("~"))
```
-/
def go_home (s : FileBrowser) (home : String) : FileBrowser × List Emit :=
  change_root_path s home

/-- `FileBrowser._change_path`, with the file-system existence test
(`os.path.exists`) passed in as an oracle:

```python
def _change_path(self):
    new_path = self._curdir_edit.text()
    if os.path.exists(new_path):
        self._change_root_path(new_path)
    else:
        self._curdir_edit.setText(self.root_path)
```
-/
def change_path (fsExists : String → Bool) (s : FileBrowser) :
    FileBrowser × List Emit :=
  let new_path := s.curdir_text
  if fsExists new_path then change_root_path s new_path
  else ({ s with curdir_text := s.root_path }, [])

/-- A user committing the text `t` in the path line edit: the edit holds `t`
when its `editingFinished` signal invokes `_change_path`. -/
def commit_text (fsExists : String → Bool) (s : FileBrowser) (t : String) :
    FileBrowser × List Emit :=
  change_path fsExists { s with curdir_text := t }

/-- `FileBrowser._change_selection`:

```python
def _change_selection(self, selection: list):
    self.selection_changed.emit(selection)
    self.selection = selection
```

The emission happens before the assignment, so the recorded consumer
snapshot carries the pre-call `selection`. -/
def change_selection (s : FileBrowser) (sel : List String) :
    FileBrowser × List Emit :=
  let e : Emit := ⟨Signal.selectionChanged sel, s.root_path, s.selection⟩
  ({ s with selection := sel }, [e])

/-- Result of `_FileTree.selectionCommand` as far as the selection model is
concerned: either the item is force-deselected or the base-class behaviour
applies. -/
inductive SelCmd where
  | deselect
  | defaultCommand
deriving Repr, DecidableEq

/-- `_FileTree.selectionCommand`, at the level of the item's file path, with
the model's `fileInfo(index).isDir()` classification passed as an oracle:

```python
def selectionCommand(self, index=..., event=...):
    if self._model.fileInfo(index).isDir():
        return QtCore.QItemSelectionModel.Deselect
    return super().selectionCommand(index, event)
```
-/
def selectionCommand (isDir : String → Bool) (path : String) : SelCmd :=
  if isDir path then SelCmd.deselect else SelCmd.defaultCommand

/-- The items that actually end up in the view's selection model: the
selection model drops every candidate whose `selectionCommand` is
`Deselect` (toolkit contract), so `selectedIndexes()` contains exactly the
non-directory candidates. -/
def effective_selection (isDir : String → Bool) (candidates : List String) :
    List String :=
  candidates.filter fun p =>
    match selectionCommand isDir p with
    | SelCmd.deselect => false
    | SelCmd.defaultCommand => true

/-- The deduplication loop in `_FileTree.selectionChanged`:

```python
selected_rows = []
for index in self.selectedIndexes():
    item = self._model.filePath(index)
    if item not in selected_rows:
        selected_rows.append(item)
```
-/
def selected_rows (paths : List String) : List String :=
  paths.foldl (fun acc item => if item ∈ acc then acc else acc ++ [item]) []

/-- One selection update as seen by the browser:
`_FileTree.selectionChanged` computes `selected_rows` from the items in the
selection model (the candidates surviving `selectionCommand`, see
`effective_selection`) and emits `selection_changed`, whose only slot is
`FileBrowser._change_selection`. -/
def tree_selection_changed (isDir : String → Bool) (s : FileBrowser)
    (candidates : List String) : FileBrowser × List Emit :=
  change_selection s (selected_rows (effective_selection isDir candidates))

/-- `_FileTree._double_clicked`, at the level of the clicked item's file
path (`_model.filePath(index)`), with the `isDir` classification passed as
an oracle:

```python
def _double_clicked(self, index=...):
    if self._model.fileInfo(index).isDir():
        self.set_root_path(self._model.filePath(index))
```

When `set_root_path` makes the tree fire `root_path_changed(q)`, the slots
run in connection order: first `FileBrowser._change_root_path(q)`, then any
external consumer, which therefore observes the browser state left behind
by `_change_root_path` (including any nested emission that call produced,
delivered before the outer one returns). -/
def double_clicked (isDir : String → Bool) (s : FileBrowser) (path : String) :
    FileBrowser × List Emit :=
  if isDir path then
    let res := tree_set_root_path s path
    match res.2 with
    | none => (res.1, [])
    | some q =>
        let res2 := change_root_path res.1 q
        (res2.1,
         res2.2 ++ [⟨Signal.rootChanged q, res2.1.root_path, res2.1.selection⟩])
  else (s, [])

/-- Deduplication keeping the first occurrence of every element, written
independently of the source loop, following the spec's wording "the
deduplicated, order-preserving input" (first-occurrence / insertion order).
Used to characterize `selected_rows`. -/
def dedupKeepFirst : List String → List String
  | [] => []
  | a :: l => a :: (dedupKeepFirst l).filter fun x => decide (x ≠ a)

/-! ## Helper lemmas -/

/-- `tree_set_root_path` touches only `model_root` and `tree_root`. -/
lemma tree_set_root_path_preserves (s : FileBrowser) (path : String) :
    (tree_set_root_path s path).1.root_path = s.root_path ∧
    (tree_set_root_path s path).1.previous_path = s.previous_path ∧
    (tree_set_root_path s path).1.next_path = s.next_path ∧
    (tree_set_root_path s path).1.selection = s.selection ∧
    (tree_set_root_path s path).1.curdir_text = s.curdir_text := by
  unfold tree_set_root_path
  split_ifs with h1 h2
  · simp
  · simp
  · by_cases h3 : path = s.tree_root <;> simp [h3]

/-- `tree_set_root_path` fires with exactly the path it was given, if at
all. -/
lemma tree_set_root_path_fire (s : FileBrowser) (path : String) :
    (tree_set_root_path s path).2 = none ∨
    (tree_set_root_path s path).2 = some path := by
  unfold tree_set_root_path
  split_ifs with h1 h2
  · simp
  · simp
  · by_cases h3 : path = s.tree_root <;> simp [h3]

/-- `update_ui` changes neither the path fields nor the selection, sets the
line-edit text to the root path, and fires (if at all) with the root
path. -/
lemma update_ui_fields (s : FileBrowser) :
    (update_ui s).1.root_path = s.root_path ∧
    (update_ui s).1.previous_path = s.previous_path ∧
    (update_ui s).1.next_path = s.next_path ∧
    (update_ui s).1.selection = s.selection ∧
    (update_ui s).1.curdir_text = s.root_path ∧
    ((update_ui s).2 = none ∨ (update_ui s).2 = some s.root_path) := by
  unfold update_ui
  have hp := tree_set_root_path_preserves
    { s with curdir_text := s.root_path } s.root_path
  have hf := tree_set_root_path_fire
    { s with curdir_text := s.root_path } s.root_path
  simp only at hp hf ⊢
  exact ⟨hp.1, hp.2.1, hp.2.2.1, hp.2.2.2.1, hp.1 ▸ hp.2.2.2.2, hf⟩

/-- `_change_root_path` with the current root path is a no-op with no
emission. -/
lemma change_root_path_noop (s : FileBrowser) (path : String)
    (h : path = s.root_path) : change_root_path s path = (s, []) := by
  unfold change_root_path
  rw [if_pos h]

/-- Field-level description of `_change_root_path` when the path differs
from the current root. -/
lemma change_root_path_ne_fields (s : FileBrowser) (path : String)
    (h : path ≠ s.root_path) :
    (change_root_path s path).1.root_path = strip_trailing_sep path ∧
    (change_root_path s path).1.previous_path = s.root_path ∧
    (change_root_path s path).1.next_path = s.next_path ∧
    (change_root_path s path).1.selection = s.selection ∧
    (change_root_path s path).1.curdir_text = strip_trailing_sep path := by
  unfold change_root_path
  rw [if_neg h]
  have hp := update_ui_fields
    { s with previous_path := s.root_path,
             root_path := strip_trailing_sep path }
  simp only at hp ⊢
  exact ⟨hp.1, hp.2.1, hp.2.2.1, hp.2.2.2.1, hp.2.2.2.2.1⟩

/-- Every emission of `_change_root_path` is a `root_path_changed` signal
whose payload is the new `root_path`, and a consumer observing it reads the
already-updated `root_path` and the unchanged `selection`. -/
lemma change_root_path_emit (s : FileBrowser) (path : String) :
    ∀ e ∈ (change_root_path s path).2,
      e.signal = Signal.rootChanged ((change_root_path s path).1.root_path) ∧
      e.root_at = (change_root_path s path).1.root_path ∧
      e.selection_at = (change_root_path s path).1.selection := by
  unfold change_root_path
  split_ifs with h
  · simp
  · have hu := update_ui_fields
      { s with previous_path := s.root_path,
               root_path := strip_trailing_sep path }
    rcases hu.2.2.2.2.2 with hf | hf <;> simp [hf, hu.1]

/-- The reentrant slot invocation during `_change_root_path`: the tree's
`root_path_changed` signal is connected to `_change_root_path` itself, but
its payload equals the just-assigned `root_path`, so the nested call
returns immediately and the modelling of the emission as state-free is
faithful. -/
lemma change_root_path_reentry (s : FileBrowser) (path : String) :
    ∀ e ∈ (change_root_path s path).2, ∀ q, e.signal = Signal.rootChanged q →
      change_root_path (change_root_path s path).1 q
        = ((change_root_path s path).1, []) := by
  intro e he q hq
  have h1 := (change_root_path_emit s path e he).1
  rw [hq] at h1
  injection h1 with h2
  exact change_root_path_noop _ _ h2

/-- `update_ui` does not fire when the model root already equals the
browser's root path. -/
lemma update_ui_no_fire (s : FileBrowser) (h : s.model_root = s.root_path) :
    (update_ui s).2 = none := by
  unfold update_ui tree_set_root_path
  simp only
  split_ifs <;> simp_all

/-! ## Claim theorems -/

/-- C1: the claim states that after initialization `root_path` is never the
empty string, under any sequence of the operations.  The code violates
this: starting from a browser rooted at `/a`, navigating to `/b`, pressing
back, navigating to `/b` again and pressing forward twice leaves
`root_path = ""`.  The fourth step is a `_change_root_path` no-op, so
`_update_ui` never runs and the forward button stays enabled with an empty
`_next_path`; the fifth press then calls `_change_root_path("")`, which has
no emptiness guard.  All steps use only enabled buttons and existing
directory paths. -/
theorem fb_c1_root_path_becomes_empty :
    (let s0 := mkFileBrowser "/cwd" "/a"
     let s1 := (change_root_path s0 "/b").1
     let s2 := (press_back s1).1
     let s3 := (change_root_path s2 "/b").1
     let s4 := (press_forward s3).1
     let s5 := (press_forward s4).1
     s4.next_path = "" ∧ s4.forward_enabled = true ∧ s5.root_path = "") := by
  decide

/-- C2: the claim states that `_go_back` with empty `_previous_path` (and
`_go_forward` with empty `_next_path`) leaves `root_path`,
`_previous_path` and `_next_path` unchanged.  The handlers have no such
guard: from the freshly constructed state (both history slots empty) each
of them overwrites all three fields, setting `root_path` to the empty
string.  (In the GUI the handlers are reachable in such states through the
stale-button scenario of `fb_c1_root_path_becomes_empty`.) -/
theorem fb_c2_empty_history_not_noop :
    (mkFileBrowser "/cwd" "/home/user").previous_path = "" ∧
    (mkFileBrowser "/cwd" "/home/user").next_path = "" ∧
    (go_back (mkFileBrowser "/cwd" "/home/user")).1.root_path = "" ∧
    (go_back (mkFileBrowser "/cwd" "/home/user")).1.previous_path
      = "/home/user" ∧
    (go_back (mkFileBrowser "/cwd" "/home/user")).1.next_path
      = "/home/user" ∧
    (go_forward (mkFileBrowser "/cwd" "/home/user")).1.root_path = "" ∧
    (go_forward (mkFileBrowser "/cwd" "/home/user")).1.previous_path
      = "/home/user" := by
  decide

/-- C3: `set_root(path)` with the current root is a no-op; otherwise one
trailing separator is stripped (unless the path is the root `"/"`),
`previous_path` becomes the old `root_path` and `root_path` becomes the
stripped path; and whenever the call actually changes the root,
`previous_path` afterwards equals `root_path` before. -/
theorem fb_c3_set_root (s : FileBrowser) (path : String) :
    (path = s.root_path → change_root_path s path = (s, [])) ∧
    (path ≠ s.root_path →
      (change_root_path s path).1.previous_path = s.root_path ∧
      (change_root_path s path).1.root_path = strip_trailing_sep path) ∧
    ((change_root_path s path).1.root_path ≠ s.root_path →
      (change_root_path s path).1.previous_path = s.root_path) := by
  refine ⟨fun h => change_root_path_noop s path h,
          fun h => ⟨(change_root_path_ne_fields s path h).2.1,
                    (change_root_path_ne_fields s path h).1⟩,
          fun h => ?_⟩
  by_cases hp : path = s.root_path
  · exfalso
    apply h
    rw [change_root_path_noop s path hp]
  · exact (change_root_path_ne_fields s path hp).2.1

/-- Witness for `fb_c3_set_root` at a concrete state and paths. -/
theorem fb_c3_set_root_witness :
    change_root_path (mkFileBrowser "/c" "/a") "/a"
      = (mkFileBrowser "/c" "/a", []) ∧
    (change_root_path (mkFileBrowser "/c" "/a") "/b/").1.previous_path
      = "/a" ∧
    (change_root_path (mkFileBrowser "/c" "/a") "/b/").1.root_path
      = strip_trailing_sep "/b/" :=
  ⟨(fb_c3_set_root (mkFileBrowser "/c" "/a") "/a").1 (by decide),
   ((fb_c3_set_root (mkFileBrowser "/c" "/a") "/b/").2.1 (by decide)).1,
   ((fb_c3_set_root (mkFileBrowser "/c" "/a") "/b/").2.1 (by decide)).2⟩

/-- C4 counterexample: a `set_root` call whose argument differs from
`root_path` only by a trailing separator (so its normalized form equals the
current root) does change the state: it overwrites `previous_path`. -/
theorem fb_c4_counterexample :
    strip_trailing_sep "/a/" = (mkFileBrowser "/c" "/a").root_path ∧
    (change_root_path (mkFileBrowser "/c" "/a") "/a/").1.previous_path ≠
      (mkFileBrowser "/c" "/a").previous_path := by
  decide

/-- C4 amended: a `set_root` call whose path equals `root_path` exactly is
a complete no-op; a call whose path merely normalizes to `root_path` emits
no root-changed notification (given the tree model is in sync with
`root_path`) and leaves `root_path` and `next_path` unchanged, but sets
`previous_path` to the old `root_path`. -/
theorem fb_c4_normalized_noop (s : FileBrowser) (path : String) :
    (path = s.root_path → change_root_path s path = (s, [])) ∧
    (strip_trailing_sep path = s.root_path → s.model_root = s.root_path →
      (change_root_path s path).1.root_path = s.root_path ∧
      (change_root_path s path).1.next_path = s.next_path ∧
      (change_root_path s path).2 = [] ∧
      (path ≠ s.root_path →
        (change_root_path s path).1.previous_path = s.root_path)) := by
  refine ⟨fun h => change_root_path_noop s path h, fun hn hm => ?_⟩
  by_cases h : path = s.root_path
  · rw [change_root_path_noop s path h]
    exact ⟨rfl, rfl, rfl, fun hh => absurd h hh⟩
  · have hfire := update_ui_no_fire
      { s with previous_path := s.root_path,
               root_path := strip_trailing_sep path }
      (by simp [hn, hm])
    have hfields := change_root_path_ne_fields s path h
    have hsnd : (change_root_path s path).2 = [] := by
      unfold change_root_path
      rw [if_neg h]
      simp [hfire]
    exact ⟨hn ▸ hfields.1, hfields.2.2.1, hsnd, fun _ => hfields.2.1⟩

/-- Witness for `fb_c4_normalized_noop` at a concrete state and path. -/
theorem fb_c4_normalized_noop_witness :
    (change_root_path (mkFileBrowser "/c" "/a") "/a/").1.root_path = "/a" ∧
    (change_root_path (mkFileBrowser "/c" "/a") "/a/").2 = [] :=
  ⟨(((fb_c4_normalized_noop (mkFileBrowser "/c" "/a") "/a/").2
      (by decide) (by decide)).1),
   (((fb_c4_normalized_noop (mkFileBrowser "/c" "/a") "/a/").2
      (by decide) (by decide)).2.2.1)⟩

/-- `_go_back` unfolded. -/
lemma go_back_eq (s : FileBrowser) :
    go_back s
      = change_root_path { s with next_path := s.root_path }
          s.previous_path := rfl

/-- `_go_forward` unfolded. -/
lemma go_forward_eq (s : FileBrowser) :
    go_forward s
      = change_root_path { s with next_path := "" } s.next_path := rfl

/-- C5 counterexample: from a reachable state whose root ends in a
separator (obtained by `set_root("/a//")`, which strips only one of the two
trailing separators), `go_back` followed by `go_forward` does not restore
`root_path`. -/
theorem fb_c5_counterexample :
    (let s1 := (change_root_path (mkFileBrowser "/c" "/b") "/a//").1
     s1.previous_path ≠ "" ∧
     (go_forward (go_back s1).1).1.root_path ≠ s1.root_path) := by
  decide

/-- C5 amended: for every state with non-empty `previous_path` whose
`root_path` is normalized (no trailing separator, or the filesystem root),
`go_back` immediately followed by `go_forward` restores `root_path`;
`go_back` first parks the pre-call root in `next_path`, which `go_forward`
consumes and clears. -/
theorem fb_c5_back_forward (s : FileBrowser)
    (hprev : s.previous_path ≠ "")
    (hnorm : strip_trailing_sep s.root_path = s.root_path) :
    (go_back s).1.next_path = s.root_path ∧
    (go_forward (go_back s).1).1.root_path = s.root_path ∧
    (go_forward (go_back s).1).1.next_path = "" := by
  by_cases h1 : s.previous_path = s.root_path
  · have hb : go_back s = ({ s with next_path := s.root_path }, []) := by
      rw [go_back_eq]
      exact change_root_path_noop _ _ (by simpa using h1)
    rw [hb]
    refine ⟨rfl, ?_, ?_⟩ <;>
      · rw [go_forward_eq]
        rw [change_root_path_noop _ _ (by simp)]
  · have hne : ({ s with next_path := s.root_path } : FileBrowser).previous_path
        ≠ ({ s with next_path := s.root_path } : FileBrowser).root_path := by
      simpa using h1
    have hf := change_root_path_ne_fields
      { s with next_path := s.root_path } s.previous_path hne
    rw [go_back_eq]
    set r1 := (change_root_path { s with next_path := s.root_path }
      s.previous_path).1 with hr1
    have hnext : r1.next_path = s.root_path := by
      rw [hr1]
      simpa using hf.2.2.1
    have hroot1 : r1.root_path = strip_trailing_sep s.previous_path := by
      rw [hr1]
      simpa using hf.1
    refine ⟨hnext, ?_, ?_⟩ <;> rw [go_forward_eq, hnext]
    · by_cases h2 : s.root_path
          = ({ r1 with next_path := "" } : FileBrowser).root_path
      · rw [change_root_path_noop _ _ h2]
        simpa using h2.symm
      · have hf2 := change_root_path_ne_fields
          { r1 with next_path := "" } s.root_path h2
        rw [hf2.1, hnorm]
    · by_cases h2 : s.root_path
          = ({ r1 with next_path := "" } : FileBrowser).root_path
      · rw [change_root_path_noop _ _ h2]
      · exact (change_root_path_ne_fields
          { r1 with next_path := "" } s.root_path h2).2.2.1

/-- Witness for `fb_c5_back_forward` at a concrete reachable state. -/
theorem fb_c5_back_forward_witness :
    (go_forward
      (go_back ((change_root_path (mkFileBrowser "/c" "/a") "/b").1)).1).1.root_path
      = ((change_root_path (mkFileBrowser "/c" "/a") "/b").1).root_path :=
  (fb_c5_back_forward ((change_root_path (mkFileBrowser "/c" "/a") "/b").1)
    (by decide) (by decide)).2.1

/-- C6 counterexample: during a `selection_changed` notification the
browser's `selection` attribute still holds the previous selection, not the
payload: `_change_selection` emits before assigning. -/
theorem fb_c6_counterexample :
    (let s1 := (change_selection (mkFileBrowser "/c" "/a") ["/f/a"]).1
     (change_selection s1 ["/f/b"]).1.selection = ["/f/b"] ∧
     (change_selection s1 ["/f/b"]).2.map Emit.selection_at = [["/f/a"]] ∧
     (["/f/a"] : List String) ≠ ["/f/b"]) := by
  decide

/-- C6 amended: notifications are synchronous; a consumer observing a
root-changed notification (from `set_root` or from a double-click) reads
the already-updated `root_path` and the unchanged `selection`.  A consumer
observing a selection-changed notification receives the new selection as
the signal payload, but the browser's `selection` attribute is updated only
after the notification, so reading it inside the notification yields the
previous selection. -/
theorem fb_c6_notification_order (s : FileBrowser) (path : String)
    (isDir : String → Bool) (sel : List String) :
    (∀ e ∈ (change_root_path s path).2,
      e.root_at = (change_root_path s path).1.root_path ∧
      e.selection_at = (change_root_path s path).1.selection) ∧
    (∀ e ∈ (double_clicked isDir s path).2,
      e.root_at = (double_clicked isDir s path).1.root_path ∧
      e.selection_at = (double_clicked isDir s path).1.selection) ∧
    ((change_selection s sel).1.selection = sel ∧
     (change_selection s sel).2
       = [⟨Signal.selectionChanged sel, s.root_path, s.selection⟩]) := by
  refine ⟨fun e he => ⟨(change_root_path_emit s path e he).2.1,
                       (change_root_path_emit s path e he).2.2⟩,
          ?_, rfl, rfl⟩
  unfold double_clicked
  split_ifs with h
  · rcases hf : (tree_set_root_path s path).2 with _ | q
    · simp [hf]
    · simp only [hf]
      intro e he
      rcases List.mem_append.1 he with he1 | he1
      · exact ⟨(change_root_path_emit _ q e he1).2.1,
               (change_root_path_emit _ q e he1).2.2⟩
      · rcases List.mem_singleton.1 he1 with rfl
        exact ⟨rfl, rfl⟩
  · simp

/-- Witness for `fb_c6_notification_order` at concrete inputs. -/
theorem fb_c6_notification_order_witness :
    (⟨Signal.rootChanged "/b", "/b", ([] : List String)⟩ : Emit).root_at
      = (change_root_path (mkFileBrowser "/c" "/a") "/b").1.root_path ∧
    (change_selection (mkFileBrowser "/c" "/a") ["/f/b"]).1.selection
      = ["/f/b"] :=
  ⟨((fb_c6_notification_order (mkFileBrowser "/c" "/a") "/b"
      (fun _ => false) ["/f/b"]).1
      ⟨Signal.rootChanged "/b", "/b", []⟩ (by decide)).1,
   (fb_c6_notification_order (mkFileBrowser "/c" "/a") "/b"
      (fun _ => false) ["/f/b"]).2.2.1⟩

/-- C7: a committed path that exists on the filesystem is handed to
`set_root` unchanged; a committed path that does not exist leaves
`root_path` (and the other path fields and the selection) unchanged,
reverts the displayed text to `root_path`, performs no transition and
emits nothing. -/
theorem fb_c7_commit_text (fsExists : String → Bool) (s : FileBrowser)
    (t : String) :
    (fsExists t = true →
      commit_text fsExists s t
        = change_root_path { s with curdir_text := t } t) ∧
    (fsExists t = false →
      (commit_text fsExists s t).1.root_path = s.root_path ∧
      (commit_text fsExists s t).1.curdir_text = s.root_path ∧
      (commit_text fsExists s t).1.previous_path = s.previous_path ∧
      (commit_text fsExists s t).1.next_path = s.next_path ∧
      (commit_text fsExists s t).1.selection = s.selection ∧
      (commit_text fsExists s t).2 = []) := by
  unfold commit_text change_path
  constructor <;> intro h <;> simp [h]

/-- Witness for `fb_c7_commit_text`: an oracle under which `/b` exists and
`/no/such/dir` does not. -/
theorem fb_c7_commit_text_witness :
    (commit_text (fun q => q == "/b") (mkFileBrowser "/c" "/a") "/b"
      = change_root_path
          { mkFileBrowser "/c" "/a" with curdir_text := "/b" } "/b") ∧
    (commit_text (fun q => q == "/b") (mkFileBrowser "/c" "/a")
        "/no/such/dir").1.root_path = (mkFileBrowser "/c" "/a").root_path ∧
    (commit_text (fun q => q == "/b") (mkFileBrowser "/c" "/a")
        "/no/such/dir").1.curdir_text = (mkFileBrowser "/c" "/a").root_path :=
  ⟨(fb_c7_commit_text (fun q => q == "/b") (mkFileBrowser "/c" "/a") "/b").1
     (by decide),
   ((fb_c7_commit_text (fun q => q == "/b") (mkFileBrowser "/c" "/a")
      "/no/such/dir").2 (by decide)).1,
   ((fb_c7_commit_text (fun q => q == "/b") (mkFileBrowser "/c" "/a")
      "/no/such/dir").2 (by decide)).2.1⟩

/-- The `selected_rows` accumulation loop, generalized over its
accumulator: it appends to `acc` the first occurrences (in order) of the
elements not already in `acc`. -/
lemma selected_rows_go (l acc : List String) :
    l.foldl (fun acc item => if item ∈ acc then acc else acc ++ [item]) acc
      = acc ++ (dedupKeepFirst l).filter (fun x => decide (x ∉ acc)) := by
  induction l generalizing acc with
  | nil => simp [dedupKeepFirst]
  | cons a l ih =>
    simp only [List.foldl_cons, dedupKeepFirst, List.filter_cons]
    by_cases ha : a ∈ acc
    · rw [if_pos ha, ih]
      have hfalse : (decide (a ∉ acc)) = false := by simp [ha]
      rw [hfalse]
      simp only [Bool.false_eq_true, if_false, List.filter_filter]
      congr 1
      refine List.filter_congr fun x _ => ?_
      by_cases h1 : x = a <;> by_cases h2 : x ∈ acc <;> simp_all
    · rw [if_neg ha, ih]
      have htrue : (decide (a ∉ acc)) = true := by simp [ha]
      rw [htrue]
      simp only [if_true, List.filter_filter, List.append_assoc,
        List.singleton_append]
      congr 2
      refine List.filter_congr fun x _ => ?_
      by_cases h1 : x = a <;> by_cases h2 : x ∈ acc <;>
        simp_all [List.mem_append]

/-- The dedup loop of `selectionChanged` computes exactly the
keep-first-occurrence deduplication of its input. -/
lemma selected_rows_eq (l : List String) :
    selected_rows l = dedupKeepFirst l := by
  unfold selected_rows
  rw [selected_rows_go, List.nil_append, List.filter_eq_self.2]
  intro a _
  simp

/-- Membership in the deduplicated list implies membership in the input. -/
lemma mem_dedupKeepFirst {x : String} {l : List String}
    (h : x ∈ dedupKeepFirst l) : x ∈ l := by
  induction l with
  | nil => simp [dedupKeepFirst] at h
  | cons a l ih =>
    simp only [dedupKeepFirst, List.mem_cons] at h
    rcases h with rfl | h
    · exact List.mem_cons_self _ _
    · exact List.mem_cons_of_mem _ (ih (List.mem_of_mem_filter h))

/-- The keep-first deduplication contains no duplicates. -/
lemma dedupKeepFirst_nodup (l : List String) : (dedupKeepFirst l).Nodup := by
  induction l with
  | nil => simp [dedupKeepFirst]
  | cons a l ih =>
    rw [dedupKeepFirst, List.nodup_cons]
    refine ⟨fun hmem => ?_, ih.filter _⟩
    have := List.of_mem_filter hmem
    simp at this

/-- Every item surviving the selection model (after `selectionCommand`
deselects directories) is a non-directory. -/
lemma effective_selection_no_dir (isDir : String → Bool)
    (candidates : List String) :
    ∀ p ∈ effective_selection isDir candidates, isDir p = false := by
  intro p hp
  have h := List.of_mem_filter hp
  cases hd : isDir p
  · rfl
  · rw [selectionCommand, if_pos hd] at h
    simp at h

/-- C8: each selection update carries exactly the input deduplicated while
keeping first occurrences, hence without duplicates, and contains no path
classified as a directory by the model at call time; the browser stores
exactly that list as `selection`. -/
theorem fb_c8_selection_dedup (isDir : String → Bool) (s : FileBrowser)
    (candidates : List String) :
    selected_rows (effective_selection isDir candidates)
      = dedupKeepFirst (effective_selection isDir candidates) ∧
    (selected_rows (effective_selection isDir candidates)).Nodup ∧
    (∀ p ∈ selected_rows (effective_selection isDir candidates),
      isDir p = false) ∧
    (tree_selection_changed isDir s candidates).1.selection
      = selected_rows (effective_selection isDir candidates) := by
  refine ⟨selected_rows_eq _, ?_, ?_, rfl⟩
  · rw [selected_rows_eq]
    exact dedupKeepFirst_nodup _
  · intro p hp
    rw [selected_rows_eq] at hp
    exact effective_selection_no_dir isDir candidates p (mem_dedupKeepFirst hp)

/-- Witness for `fb_c8_selection_dedup` on a concrete candidate list with a
duplicate and a directory. -/
theorem fb_c8_selection_dedup_witness :
    (selected_rows (effective_selection (fun q => q == "/d")
        ["/a", "/d", "/b", "/a"])).Nodup ∧
    (fun q : String => q == "/d") "/a" = false :=
  ⟨(fb_c8_selection_dedup (fun q => q == "/d") (mkFileBrowser "/c" "/x")
      ["/a", "/d", "/b", "/a"]).2.1,
   (fb_c8_selection_dedup (fun q => q == "/d") (mkFileBrowser "/c" "/x")
      ["/a", "/d", "/b", "/a"]).2.2.1 "/a" (by decide)⟩

/-- C9: a double-click on an item classified as a directory changes the
root to that item's path `<old_root>/subdir` (and the item is not added to
the selection; `selectionCommand` force-deselects it), while a double-click
on a non-directory item changes nothing. -/
theorem fb_c9_double_click (isDir : String → Bool) (s : FileBrowser)
    (sub p : String) :
    (isDir p = true → p = s.root_path ++ "/" ++ sub →
     ends_with_sep p = false →
     s.tree_root = s.root_path → s.model_root = s.root_path →
      (double_clicked isDir s p).1.root_path = p ∧
      (double_clicked isDir s p).1.selection = s.selection ∧
      selectionCommand isDir p = SelCmd.deselect) ∧
    (isDir p = false → double_clicked isDir s p = (s, [])) := by
  constructor
  · intro hd hp hsep ht hm
    have hone : ("/" : String).length = 1 := rfl
    have hlen : p.length = s.root_path.length + 1 + sub.length := by
      rw [hp]
      simp [String.length_append, hone]
    have hne_empty : p ≠ "" := by
      intro h
      rw [h] at hlen
      have : ("" : String).length = 0 := rfl
      omega
    have hne_root : p ≠ s.root_path := by
      intro h
      rw [h] at hlen
      omega
    have htree : tree_set_root_path s p
        = ({ s with model_root := p, tree_root := p }, some p) := by
      unfold tree_set_root_path
      rw [if_neg hne_empty, if_neg (by rw [hm]; exact hne_root),
          if_neg (by simpa [ht] using hne_root)]
    have hstrip : strip_trailing_sep p = p := by
      unfold strip_trailing_sep
      rw [if_neg]
      simp [hsep]
    have hS : p ≠ ({ s with model_root := p, tree_root := p }
        : FileBrowser).root_path := by
      simpa using hne_root
    have hf := change_root_path_ne_fields
      { s with model_root := p, tree_root := p } p hS
    simp only [double_clicked, hd, if_true, htree]
    exact ⟨by rw [hf.1, hstrip], by simpa using hf.2.2.2.1,
           by simp [selectionCommand, hd]⟩
  · intro h
    simp [double_clicked, h]

/-- Witness for `fb_c9_double_click`: double-clicking the directory
`/a/subdir` under root `/a`, and double-clicking a file. -/
theorem fb_c9_double_click_witness :
    (double_clicked (fun q => q == "/a/subdir") (mkFileBrowser "/c" "/a")
      "/a/subdir").1.root_path = "/a/subdir" ∧
    (double_clicked (fun q => q == "/a/subdir") (mkFileBrowser "/c" "/a")
      "/a/subdir").1.selection = (mkFileBrowser "/c" "/a").selection ∧
    double_clicked (fun q => q == "/a/subdir") (mkFileBrowser "/c" "/a")
      "/a/file.txt" = (mkFileBrowser "/c" "/a", []) :=
  ⟨((fb_c9_double_click (fun q => q == "/a/subdir") (mkFileBrowser "/c" "/a")
      "subdir" "/a/subdir").1 (by decide) (by decide) (by decide) (by decide)
      (by decide)).1,
   ((fb_c9_double_click (fun q => q == "/a/subdir") (mkFileBrowser "/c" "/a")
      "subdir" "/a/subdir").1 (by decide) (by decide) (by decide) (by decide)
      (by decide)).2.1,
   (fb_c9_double_click (fun q => q == "/a/subdir") (mkFileBrowser "/c" "/a")
      "subdir" "/a/file.txt").2 (by decide)⟩

/-- C10 counterexample: in a reachable state whose root ends in a
separator, pressing back twice does not return to the original root. -/
theorem fb_c10_counterexample :
    (let s1 := (change_root_path (mkFileBrowser "/c" "/b") "/a//").1
     s1.previous_path ≠ "" ∧ s1.previous_path ≠ s1.root_path ∧
     (go_back (go_back s1).1).1.root_path ≠ s1.root_path) := by
  decide

/-- C10 amended: when `previous_path` is non-empty and differs from
`root_path`, and `root_path` is normalized (no trailing separator, or the
filesystem root), two consecutive `go_back` calls return `root_path` to its
original value: the depth-1 history swaps the two fields twice. -/
theorem fb_c10_double_back (s : FileBrowser)
    (hprev : s.previous_path ≠ "")
    (hne : s.previous_path ≠ s.root_path)
    (hnorm : strip_trailing_sep s.root_path = s.root_path) :
    (go_back (go_back s).1).1.root_path = s.root_path := by
  rw [go_back_eq]
  have hf := change_root_path_ne_fields
    { s with next_path := s.root_path } s.previous_path (by simpa using hne)
  set r1 := (change_root_path { s with next_path := s.root_path }
    s.previous_path).1 with hr1
  have hprev1 : r1.previous_path = s.root_path := by
    rw [hr1]
    simpa using hf.2.1
  rw [go_back_eq]
  by_cases h2 : r1.previous_path
      = ({ r1 with next_path := r1.root_path } : FileBrowser).root_path
  · rw [change_root_path_noop _ _ h2]
    exact h2.symm.trans hprev1
  · rw [(change_root_path_ne_fields
      { r1 with next_path := r1.root_path } r1.previous_path h2).1, hprev1]
    exact hnorm

/-- Witness for `fb_c10_double_back` at a concrete reachable state. -/
theorem fb_c10_double_back_witness :
    (go_back
      (go_back ((change_root_path (mkFileBrowser "/c" "/a") "/b").1)).1).1.root_path
      = ((change_root_path (mkFileBrowser "/c" "/a") "/b").1).root_path :=
  fb_c10_double_back ((change_root_path (mkFileBrowser "/c" "/a") "/b").1)
    (by decide) (by decide) (by decide)
